import Mathlib

/-!
# Verification of the opalloc object-pool allocator

A shallow embedding of the pool-management engine in `opalloc.c`
(types `_active`, `_ab_t`, `struct _op_allocator`; operations
`op_ll_allocate_object`, `op_ll_deallocate_object`,
`op_ll_deinitialize_allocator`, `op_ll_get_allocator_stats`,
`op_ll_initialize_allocator`; helpers `fill_chunks`, `grow_pool`).

Modelling choices:

* A directory entry (`_ab_t *`) is `Option Bool`: `none` models a NULL
  pointer, `some b` models a backed slot entry whose `in_use` flag is `b`
  (`true` = `IN_USE`, `false` = `NOT_IN_USE`).  Payload bytes are not
  modelled; no claim depends on payload contents.
* Payload addresses: distinct slot entries always have distinct payload
  addresses (`&pool[i]->data`), so an object pointer is modelled by the
  directory index of the slot that owns it.  A foreign pointer is any
  index that is not a backed slot of the directory.
* The main operation definitions model the path where the system memory
  allocator (`calloc`/`realloc`) succeeds.  `grow_pool_mem` additionally
  makes the outcomes of `realloc` and of `fill_chunks`'s `calloc`
  explicit, mirroring the C statement order, for the error-path claims.
* Error-hook invocations (`op_error_handler`) are modelled by returning
  the list of message strings the C code passes to the hook.
-/

namespace Opalloc

/-- The public mode enum `op_ll_allocator_mode` from `opalloc.h`. -/
inductive op_ll_allocator_mode where
  | OP_DOUBLING_INDIVIDUAL
  | OP_DOUBLING_CHUNK
  | OP_LINEAR_INDIVIDUAL
  | OP_LINEAR_CHUNK
deriving DecidableEq, Repr

/-- The `use_chunks` flag assigned by the `switch (mode)` at the top of
`op_ll_initialize_allocator`. -/
def op_ll_allocator_mode.use_chunks : op_ll_allocator_mode → Bool
  | .OP_DOUBLING_INDIVIDUAL => false
  | .OP_DOUBLING_CHUNK => true
  | .OP_LINEAR_INDIVIDUAL => false
  | .OP_LINEAR_CHUNK => true

/-- The `use_linear` flag assigned by the `switch (mode)` at the top of
`op_ll_initialize_allocator`. -/
def op_ll_allocator_mode.use_linear : op_ll_allocator_mode → Bool
  | .OP_DOUBLING_INDIVIDUAL => false
  | .OP_DOUBLING_CHUNK => false
  | .OP_LINEAR_INDIVIDUAL => true
  | .OP_LINEAR_CHUNK => true

/-- One directory entry (`_ab_t *`): `none` is a NULL pointer, `some b` is a
backed slot entry with `in_use = b` (`true` = `IN_USE`). -/
abbrev Slot := Option Bool

/-- `struct _op_allocator`.  The `pool` array of `maximum_objects` entries is
modelled as a list of directory entries. -/
structure op_allocator where
  object_size : Nat
  initial_count : Nat
  maximum_objects : Nat
  use_chunks : Bool
  use_linear : Bool
  initialized : Bool
  pool : List Slot
deriving DecidableEq, Repr

/-- `struct op_allocator_stats` from `opalloc.h`. -/
structure op_allocator_stats where
  object_size : Nat
  maximum_objects : Nat
  active_objects : Nat
deriving DecidableEq, Repr

/-- The first-fit scan of the `for` loop in `op_ll_allocate_object`: the
first index whose entry is NULL (`pool[i] == NULL`) or backed but not in
use (`pool[i]->in_use == NOT_IN_USE`); `none` when the scan falls through
to the growth branch. -/
def find_slot : List Slot → Option Nat
  | [] => none
  | none :: _ => some 0
  | some false :: _ => some 0
  | some true :: l => (find_slot l).map (· + 1)

/-- The pointer-distribution loop of `fill_chunks`: entry `i + offset`
receives a pointer into the fresh zeroed chunk for `i = 0 .. object_count-1`
(`calloc` zeroes the chunk, so each installed slot entry has
`in_use = NOT_IN_USE`). -/
def fill_loop (pool : List Slot) (offset : Nat) : Nat → List Slot
  | 0 => pool
  | n + 1 => (fill_loop pool offset n).set (n + offset) (some false)

/-- `fill_chunks` on the path where the chunk `calloc` succeeds: installs
`object_count` fresh not-in-use slot entries at directory offsets
`offset .. offset + object_count - 1`. -/
def fill_chunks (a : op_allocator) (offset object_count : Nat) : op_allocator :=
  { a with pool := fill_loop a.pool offset object_count }

/-- `grow_pool` on the path where `realloc` (and any chunk `calloc`)
succeeds: linear mode grows by `initial_count`, doubling mode doubles;
the directory is extended with NULL entries, `maximum_objects` is updated,
and under chunked layout the new range is filled by
`fill_chunks(allocator, old_size, grow_size)`.  The Bool is the C return
value. -/
def grow_pool (a : op_allocator) : op_allocator × Bool :=
  let old_size := a.maximum_objects
  let grow_size := if a.use_linear then a.initial_count else old_size
  let new_size := if a.use_linear then old_size + a.initial_count else old_size * 2
  let a1 : op_allocator :=
    { a with pool := a.pool ++ List.replicate (new_size - old_size) none,
             maximum_objects := new_size }
  if a.use_chunks then (fill_chunks a1 old_size grow_size, true) else (a1, true)

/-- `grow_pool` with the memory-allocator outcomes made explicit, following
the C statement order.  `realloc_ok` is the outcome of
`allocator->pool = realloc(allocator->pool, sizeof(_ab_t *) * new_size)`:
on failure `realloc` returns NULL (leaving the old block allocated but
unreferenced) and the C stores that NULL straight into `allocator->pool`.
`chunk_ok` is the outcome of the chunk `calloc` inside `fill_chunks`; the C
assigns `allocator->maximum_objects = new_size` before calling
`fill_chunks`, so a chunk failure leaves the enlarged size in place.
Result: the final `pool` field (`none` = NULL directory pointer), the final
`maximum_objects` field, and the C return value. -/
def grow_pool_mem (a : op_allocator) (realloc_ok chunk_ok : Bool) :
    Option (List Slot) × Nat × Bool :=
  let old_size := a.maximum_objects
  let grow_size := if a.use_linear then a.initial_count else old_size
  let new_size := if a.use_linear then old_size + a.initial_count else old_size * 2
  if realloc_ok then
    let pool := a.pool ++ List.replicate (new_size - old_size) none
    if a.use_chunks then
      if chunk_ok then (some (fill_loop pool old_size grow_size), new_size, true)
      else (some pool, new_size, false)
    else (some pool, new_size, true)
  else (none, old_size, false)

/-- Result of `op_ll_allocate_object`: the allocator state on return, the
returned object pointer (`none` = NULL), whether the call reached the
`grow_pool` branch, and the messages passed to `op_error_handler`. -/
structure AllocateResult where
  allocator : op_allocator
  rv : Option Nat
  grew : Bool
  errors : List String
deriving DecidableEq, Repr

/-- `op_ll_allocate_object` on the path where the system memory allocator
succeeds: first-fit scan for a NULL or not-in-use entry; a found slot is
(re)backed, zeroed and marked `IN_USE`; if the scan falls through, one
`grow_pool` call is made and the scan retried once. -/
def op_ll_allocate_object (a : op_allocator) : AllocateResult :=
  if a.initialized then
    match find_slot a.pool with
    | some i =>
        ⟨{ a with pool := a.pool.set i (some true) }, some i, false, []⟩
    | none =>
        let g := grow_pool a
        if g.2 then
          match find_slot g.1.pool with
          | some i =>
              ⟨{ g.1 with pool := g.1.pool.set i (some true) }, some i, true, []⟩
          | none =>
              ⟨g.1, none, true, ["Could not allocate desired object."]⟩
        else
          ⟨g.1, none, true,
            ["Unable to grow allocation pool.", "Could not allocate desired object."]⟩
  else
    ⟨a, none, false,
      ["Attempted to allocate from uninitialized allocator.",
       "Could not allocate desired object."]⟩

/-- The scan loop of `op_ll_deallocate_object`, looking for position `p`
(the slot whose payload address equals the object).  The C compares
`allocator->pool[i]->data == object` with no NULL check on `pool[i]`, so
reaching a NULL entry dereferences a null pointer: that is modelled as
`none` (undefined behaviour / fault).  `some pool` is a completed scan:
either the matching entry was flipped to `NOT_IN_USE`, or the scan
exhausted the directory unchanged. -/
def dealloc_scan : Nat → List Slot → Option (List Slot)
  | _, [] => some []
  | _, none :: _ => none
  | 0, some _ :: rest => some (some false :: rest)
  | p + 1, some b :: rest => (dealloc_scan p rest).map (some b :: ·)

/-- Result of `op_ll_deallocate_object`: the allocator state on return
(`none` when the handle was NULL), the messages passed to
`op_error_handler`, and whether the scan dereferenced a NULL directory
entry (undefined behaviour in the C). -/
structure DeallocateResult where
  allocator : Option op_allocator
  errors : List String
  faulted : Bool
deriving DecidableEq, Repr

/-- `op_ll_deallocate_object`.  Note the C guard is only
`allocator != NULL && object != NULL`: the `initialized` flag is not
consulted, and the scan dereferences every visited entry. -/
def op_ll_deallocate_object (a? : Option op_allocator) (object : Option Nat) :
    DeallocateResult :=
  match a?, object with
  | some a, some p =>
      match dealloc_scan p a.pool with
      | some pool => ⟨some { a with pool := pool }, [], false⟩
      | none => ⟨some a, [], true⟩
  | _, _ => ⟨a?, ["Invalid allocator or object while deallocating."], false⟩

/-- The counting loop of `op_ll_get_allocator_stats`: scans from index 0
while `pool[i] != NULL`, counting entries with `in_use == IN_USE`. -/
def countActive : List Slot → Nat
  | [] => 0
  | none :: _ => 0
  | some true :: l => countActive l + 1
  | some false :: l => countActive l

/-- `op_ll_get_allocator_stats`: a zeroed structure unless the handle is
non-NULL and initialized; note that no `op_error_handler` call exists in
this function, so the error list is empty on every path. -/
def op_ll_get_allocator_stats (a : op_allocator) : op_allocator_stats × List String :=
  if a.initialized then
    (⟨a.object_size, a.maximum_objects, countActive a.pool⟩, [])
  else
    (⟨0, 0, 0⟩, [])

/-- `op_ll_initialize_allocator` on the path where the system memory
allocator succeeds: the handle record is zeroed and configured, the
directory is `calloc`ed to `initial_count` NULL entries, and under chunked
layout `fill_chunks(rv, 0, maximum_objects)` backs every slot. -/
def op_ll_initialize_allocator (object_size initial_count : Nat)
    (mode : op_ll_allocator_mode) : op_allocator :=
  let a : op_allocator :=
    { object_size := object_size
      initial_count := initial_count
      maximum_objects := initial_count
      use_chunks := mode.use_chunks
      use_linear := mode.use_linear
      initialized := true
      pool := List.replicate initial_count none }
  if mode.use_chunks then fill_chunks a 0 initial_count else a

/-- The linear-chunk free loop of `op_ll_deinitialize_allocator`:
`for (i = 0; i < maximum_objects; i += initial_count) free(pool[i])`.
The source loop does not terminate when the step is 0 (the claims all
assume a positive initial capacity); the model recurses only for a
positive step. -/
def linOffsets (step maxObjects i : Nat) : List Nat :=
  if h : 0 < step ∧ i < maxObjects then i :: linOffsets step maxObjects (i + step) else []
termination_by maxObjects - i
decreasing_by omega

/-- The doubling-chunk free loop of `op_ll_deinitialize_allocator`:
`for (i = initial_count; i < maximum_objects; i <<= 1) free(pool[i])`.
The source loop does not terminate when `i` is 0 (the claims all assume a
positive initial capacity); the model recurses only for positive `i`. -/
def dblOffsets (maxObjects i : Nat) : List Nat :=
  if h : 0 < i ∧ i < maxObjects then i :: dblOffsets maxObjects (2 * i) else []
termination_by maxObjects - i
decreasing_by omega

/-- The directory offsets at which `op_ll_deinitialize_allocator` calls
`free` on backing blocks for a chunked allocator: linear growth frees
`pool[i]` for `i = 0, C, 2C, ...`; doubling growth frees `pool[0]` and then
`pool[i]` for `i = C, 2C, 4C, ...` (each below `maximum_objects`). -/
def deinit_free_offsets (a : op_allocator) : List Nat :=
  if a.use_linear then linOffsets a.initial_count a.maximum_objects 0
  else 0 :: dblOffsets a.maximum_objects a.initial_count

/-- `n` successive successful `grow_pool` calls, together with the list of
directory offsets at which `fill_chunks` installed a contiguous backing
block for a chunked allocator: `op_ll_initialize_allocator` calls
`fill_chunks(rv, 0, maximum_objects)` (offset 0), and each `grow_pool`
calls `fill_chunks(allocator, old_size, grow_size)` where `old_size` is
`maximum_objects` before that growth step. -/
def growTrace (a : op_allocator) : Nat → op_allocator × List Nat
  | 0 => (a, [0])
  | n + 1 =>
      let p := growTrace a n
      ((grow_pool p.1).1, p.2 ++ [p.1.maximum_objects])

/-- The allocator state after `n` successive successful `grow_pool` calls. -/
def growN (a : op_allocator) : Nat → op_allocator
  | 0 => a
  | n + 1 => grow_pool (growN a n) |>.1

/-- The chunk start offsets recorded by `growTrace`. -/
def fill_chunk_starts (a : op_allocator) (n : Nat) : List Nat :=
  (growTrace a n).2

/-- The allocator state after `n` successive `op_ll_allocate_object` calls. -/
def allocN (a : op_allocator) : Nat → op_allocator
  | 0 => a
  | n + 1 => op_ll_allocate_object (allocN a n) |>.allocator

/-- One client operation on a pool: an allocation, or a deallocation of the
object whose payload pointer is slot index `p`. -/
inductive PoolOp where
  | alloc : PoolOp
  | dealloc : Nat → PoolOp
deriving DecidableEq, Repr

/-- One successful client operation: an `op_ll_allocate_object` call that
returns a non-NULL pointer, or an `op_ll_deallocate_object` call on the
pointer of a currently live (backed, in-use) object that completes its
scan.  `none` when the operation is not successful in that sense. -/
def runOp (a : op_allocator) : PoolOp → Option op_allocator
  | .alloc =>
      let r := op_ll_allocate_object a
      match r.rv with
      | some _ => some r.allocator
      | none => none
  | .dealloc p =>
      if a.pool[p]? = some (some true) then
        match dealloc_scan p a.pool with
        | some pool => some { a with pool := pool }
        | none => none
      else none

/-- A finite sequence of successful allocate/deallocate calls. -/
def runTrace : op_allocator → List PoolOp → Option op_allocator
  | a, [] => some a
  | a, op :: rest =>
      match runOp a op with
      | some a1 => runTrace a1 rest
      | none => none

/-- Number of allocate calls in a trace. -/
def countAllocs : List PoolOp → Nat
  | [] => 0
  | .alloc :: r => countAllocs r + 1
  | .dealloc _ :: r => countAllocs r

/-- Number of deallocate calls in a trace. -/
def countDeallocs : List PoolOp → Nat
  | [] => 0
  | .alloc :: r => countDeallocs r
  | .dealloc _ :: r => countDeallocs r + 1

/-- The number of backed in-use slot entries in a directory (the number of
objects allocated and not yet deallocated). -/
def countTrue : List Slot → Nat
  | [] => 0
  | some true :: l => countTrue l + 1
  | _ :: l => countTrue l

/-- The no-gaps directory shape: once a NULL entry occurs, every later
entry is NULL as well (backed entries form a contiguous initial run). -/
def noGaps : List Slot → Bool
  | [] => true
  | none :: rest => rest.all fun s => s.isNone
  | some _ :: rest => noGaps rest

/-- The handle invariant maintained by the engine: the directory has no
gaps, its length is `maximum_objects`, the handle is initialized, and the
capacities are positive (`initial_count` from the caller contract of
`op_ll_initialize_allocator`, and `initial_count ≤ maximum_objects` since
capacity only grows). -/
def Inv (a : op_allocator) : Prop :=
  noGaps a.pool = true ∧ a.pool.length = a.maximum_objects ∧
    a.initialized = true ∧ 0 < a.initial_count ∧ a.initial_count ≤ a.maximum_objects

instance (a : op_allocator) : Decidable (Inv a) := by
  unfold Inv
  infer_instance

/-- `entry_size` as computed in `fill_chunks`: `sizeof(_ab_t)` (given here
as `ab_header`, a platform constant) plus `object_size`. -/
def entry_size (ab_header object_size : Nat) : Nat := ab_header + object_size

/-- The number of bytes obtained for one chunk in `fill_chunks`: the C
computes `chunk_size = object_count * entry_size` and then calls
`calloc(object_count, chunk_size)`, which yields
`object_count * chunk_size` bytes. -/
def fill_chunks_alloc_bytes (ab_header object_size object_count : Nat) : Nat :=
  object_count * (object_count * entry_size ab_header object_size)

/-- A one-slot linear-chunked handle holding one live object: the state
reached by `op_ll_initialize_allocator(1, 1, OP_LINEAR_CHUNK)` followed by
one successful allocation.  Used as a concrete evaluation point. -/
def live_handle : op_allocator :=
  { object_size := 1, initial_count := 1, maximum_objects := 1,
    use_chunks := true, use_linear := true, initialized := true,
    pool := [some true] }

/-- A handle record whose `initialized` flag is false, as for a handle the
engine refuses to operate on.  Used as a concrete evaluation point. -/
def stale_handle : op_allocator :=
  { object_size := 1, initial_count := 1, maximum_objects := 1,
    use_chunks := false, use_linear := false, initialized := false,
    pool := [some true] }

/-! ## List helper lemmas -/

theorem set_append_of_le {α : Type} (l1 l2 : List α) (k : Nat) (v : α) :
    (l1 ++ l2).set (l1.length + k) v = l1 ++ l2.set k v := by
  induction l1 with
  | nil => simp
  | cons x xs ih => simp [List.set, Nat.succ_add, ih]

theorem set_append_len {α : Type} (l1 : List α) (x : α) (l2 : List α) (v : α) :
    (l1 ++ x :: l2).set l1.length v = l1 ++ v :: l2 := by
  have h := set_append_of_le l1 (x :: l2) 0 v
  simpa using h

theorem set_append_at {α : Type} (l1 : List α) (x : α) (l2 : List α) (v : α)
    (i : Nat) (h : i = l1.length) : (l1 ++ x :: l2).set i v = l1 ++ v :: l2 := by
  subst h
  exact set_append_len l1 x l2 v

theorem lt_of_getElem?_some {α : Type} {l : List α} {n : Nat} {x : α}
    (h : l[n]? = some x) : n < l.length := by
  by_contra hc
  rw [List.getElem?_eq_none_iff.mpr (by omega)] at h
  exact Option.noConfusion h

/-! ## find_slot specification -/

theorem find_slot_some : ∀ (l : List Slot) (i : Nat), find_slot l = some i →
    i < l.length ∧ (l[i]? = some none ∨ l[i]? = some (some false)) ∧
      ∀ j, j < i → l[j]? = some (some true)
  | [], i, h => by simp [find_slot] at h
  | none :: rest, i, h => by
      simp [find_slot] at h
      subst h
      exact ⟨Nat.succ_pos _, Or.inl (by simp), fun j hj => absurd hj (Nat.not_lt_zero j)⟩
  | some false :: rest, i, h => by
      simp [find_slot] at h
      subst h
      exact ⟨Nat.succ_pos _, Or.inr (by simp), fun j hj => absurd hj (Nat.not_lt_zero j)⟩
  | some true :: rest, i, h => by
      simp [find_slot] at h
      obtain ⟨i0, hi0, rfl⟩ := h
      obtain ⟨hlt, hslot, hbefore⟩ := find_slot_some rest i0 hi0
      refine ⟨by simpa using Nat.succ_lt_succ hlt, by simpa using hslot, ?_⟩
      intro j hj
      match j with
      | 0 => simp
      | j + 1 => simpa using hbefore j (Nat.lt_of_succ_lt_succ hj)

theorem find_slot_none : ∀ (l : List Slot), find_slot l = none → ∀ s ∈ l, s = some true
  | [], _, s, hs => by cases hs
  | none :: _, h, _, _ => by simp [find_slot] at h
  | some false :: _, h, _, _ => by simp [find_slot] at h
  | some true :: rest, h, s, hs => by
      simp [find_slot] at h
      rcases List.mem_cons.mp hs with rfl | hs2
      · rfl
      · exact find_slot_none rest h s hs2

theorem find_slot_replicate_true (k : Nat) (l : List Slot) :
    find_slot (List.replicate k (some true) ++ l) = (find_slot l).map (· + k) := by
  induction k with
  | zero => simp [Option.map_id']
  | succ n ih =>
    rw [List.replicate_succ, List.cons_append,
      show find_slot (some true :: (List.replicate n (some true) ++ l)) =
        (find_slot (List.replicate n (some true) ++ l)).map (· + 1) from rfl,
      ih, Option.map_map]
    cases find_slot l with
    | none => rfl
    | some i => simp [Function.comp, Nat.add_assoc]

theorem find_slot_avail_head (s : Slot) (l : List Slot)
    (h : s = none ∨ s = some false) : find_slot (s :: l) = some 0 := by
  rcases h with rfl | rfl <;> rfl

/-! ## countTrue / countActive / noGaps lemmas -/

theorem countTrue_append (l1 l2 : List Slot) :
    countTrue (l1 ++ l2) = countTrue l1 + countTrue l2 := by
  induction l1 with
  | nil => simp [countTrue]
  | cons s rest ih =>
    match s with
    | none => simpa [countTrue] using ih
    | some false => simpa [countTrue] using ih
    | some true => simp [countTrue, ih]; omega

theorem countTrue_replicate_of_ne (n : Nat) (s : Slot) (h : s ≠ some true) :
    countTrue (List.replicate n s) = 0 := by
  induction n with
  | zero => rfl
  | succ m ih =>
    match s, h with
    | none, _ => simpa [List.replicate_succ, countTrue] using ih
    | some false, _ => simpa [List.replicate_succ, countTrue] using ih
    | some true, h => exact absurd rfl h

theorem countTrue_set_true (l : List Slot) (i : Nat)
    (h : l[i]? = some none ∨ l[i]? = some (some false)) :
    countTrue (l.set i (some true)) = countTrue l + 1 := by
  induction l generalizing i with
  | nil => rcases h with h | h <;> simp at h
  | cons s rest ih =>
    match i with
    | 0 =>
        simp at h
        rcases h with rfl | rfl <;> simp [countTrue]
    | i + 1 =>
        simp at h
        have := ih i (by simpa using h)
        match s with
        | none => simpa [countTrue, List.set]
        | some false => simpa [countTrue, List.set]
        | some true => simpa [countTrue, List.set]

theorem countTrue_set_false (l : List Slot) (i : Nat)
    (h : l[i]? = some (some true)) :
    countTrue (l.set i (some false)) + 1 = countTrue l := by
  induction l generalizing i with
  | nil => simp at h
  | cons s rest ih =>
    match i with
    | 0 =>
        simp at h
        subst h
        simp [countTrue]
    | i + 1 =>
        simp at h
        have := ih i (by simpa using h)
        match s with
        | none => simpa [countTrue, List.set]
        | some false => simpa [countTrue, List.set]
        | some true => simp [countTrue, List.set]; omega

theorem countTrue_eq_zero_of_all_none (l : List Slot) (h : ∀ s ∈ l, s = none) :
    countTrue l = 0 := by
  induction l with
  | nil => rfl
  | cons y ys ih =>
    have hy := h y (List.mem_cons_self y ys)
    subst hy
    simpa [countTrue] using ih fun s hs => h s (List.mem_cons_of_mem _ hs)

theorem countActive_eq_countTrue (l : List Slot) (h : noGaps l = true) :
    countActive l = countTrue l := by
  induction l with
  | nil => rfl
  | cons s rest ih =>
    cases s with
    | none =>
        simp only [noGaps, List.all_eq_true] at h
        have : countTrue rest = 0 :=
          countTrue_eq_zero_of_all_none rest fun s hs => by
            have := h s hs
            simpa [Option.isNone_iff_eq_none] using this
        simp [countActive, countTrue, this]
    | some b =>
        simp only [noGaps] at h
        cases b <;> simp [countActive, countTrue, ih h]

/-! ## noGaps preservation lemmas -/

theorem noGaps_set_backed : ∀ (l : List Slot) (i : Nat) (b c : Bool),
    l[i]? = some (some b) → noGaps l = true → noGaps (l.set i (some c)) = true
  | [], i, b, c, h, _ => by simp at h
  | s :: rest, 0, b, c, h, hg => by
      simp at h
      subst h
      simpa [noGaps, List.set] using hg
  | s :: rest, i + 1, b, c, h, hg => by
      simp at h
      cases s with
      | none =>
          exfalso
          simp only [noGaps, List.all_eq_true] at hg
          have hmem : rest[i]? = some (some b) := h
          have : some b ∈ rest := List.getElem?_mem hmem
          have := hg _ this
          simp at this
      | some sb =>
          simp only [noGaps, List.set] at hg ⊢
          exact noGaps_set_backed rest i b c h hg

theorem noGaps_set_first_none : ∀ (l : List Slot) (i : Nat) (c : Bool),
    l[i]? = some none → (∀ j, j < i → l[j]? = some (some true)) →
    noGaps l = true → noGaps (l.set i (some c)) = true
  | [], i, c, h, _, _ => by simp at h
  | s :: rest, 0, c, h, _, hg => by
      simp at h
      subst h
      simp only [noGaps, List.all_eq_true] at hg
      simp only [List.set, noGaps]
      induction rest with
      | nil => rfl
      | cons y ys ihy =>
          have hy := hg y (List.mem_cons_self y ys)
          cases y with
          | some _ => simp at hy
          | none =>
              simp only [noGaps, List.all_eq_true]
              exact fun s hs => hg s (List.mem_cons_of_mem _ hs)
  | s :: rest, i + 1, c, h, hbefore, hg => by
      simp at h
      have hs0 := hbefore 0 (Nat.succ_pos i)
      simp at hs0
      subst hs0
      simp only [noGaps, List.set] at hg ⊢
      exact noGaps_set_first_none rest i c h
        (fun j hj => by simpa using hbefore (j + 1) (Nat.succ_lt_succ hj)) hg

theorem noGaps_append_of_backed (l : List Slot) (tail : List Slot)
    (hl : ∀ s ∈ l, ∃ b, s = some b) (ht : noGaps tail = true) :
    noGaps (l ++ tail) = true := by
  induction l with
  | nil => simpa using ht
  | cons s rest ih =>
    obtain ⟨b, rfl⟩ := hl s (List.mem_cons_self s rest)
    simp only [List.cons_append, noGaps]
    exact ih fun s hs => hl s (List.mem_cons_of_mem _ hs)

theorem noGaps_replicate_none (g : Nat) : noGaps (List.replicate g (none : Slot)) = true := by
  cases g with
  | zero => rfl
  | succ m =>
      simp only [List.replicate_succ, noGaps, List.all_eq_true]
      intro s hs
      simp [List.eq_of_mem_replicate hs]

theorem noGaps_replicate_backed (g : Nat) (b : Bool) :
    noGaps (List.replicate g (some b : Slot)) = true := by
  induction g with
  | zero => rfl
  | succ m ih => simpa [List.replicate_succ, noGaps] using ih

/-! ## fill_loop lemmas -/

theorem fill_loop_length (pool : List Slot) (offset : Nat) :
    ∀ n, (fill_loop pool offset n).length = pool.length
  | 0 => rfl
  | n + 1 => by simp [fill_loop, fill_loop_length pool offset n]

theorem fill_loop_spec (l : List Slot) (m : Nat) :
    ∀ n, n ≤ m → fill_loop (l ++ List.replicate m (none : Slot)) l.length n =
      l ++ List.replicate n (some false) ++ List.replicate (m - n) (none : Slot)
  | 0, _ => by simp [fill_loop]
  | n + 1, h => by
      have ih := fill_loop_spec l m n (Nat.le_of_succ_le h)
      have hrep : List.replicate (m - n) (none : Slot) =
          none :: List.replicate (m - (n + 1)) none := by
        have : m - n = (m - (n + 1)) + 1 := by omega
        rw [this, List.replicate_succ]
      rw [fill_loop, ih, hrep]
      have hlen : (l ++ List.replicate n (some false : Slot)).length = n + l.length := by
        simp [Nat.add_comm]
      calc ((l ++ List.replicate n (some false)) ++
              none :: List.replicate (m - (n + 1)) none).set (n + l.length) (some false)
          = ((l ++ List.replicate n (some false)) ++
              none :: List.replicate (m - (n + 1)) none).set
                (l ++ List.replicate n (some false : Slot)).length (some false) := by
            rw [hlen]
        _ = (l ++ List.replicate n (some false)) ++
              some false :: List.replicate (m - (n + 1)) none := by
            rw [set_append_len]
        _ = l ++ List.replicate (n + 1) (some false) ++ List.replicate (m - (n + 1)) none := by
            simp [List.replicate_succ' n (some false : Slot), List.append_assoc]

/-! ## dealloc_scan lemmas -/

theorem dealloc_scan_live : ∀ (l : List Slot) (p : Nat) (c : Bool),
    (∀ j, j < p → ∃ b, l[j]? = some (some b)) → l[p]? = some (some c) →
    dealloc_scan p l = some (l.set p (some false))
  | [], p, c, _, hp => by simp at hp
  | none :: rest, 0, c, _, hp => by simp at hp
  | none :: rest, p + 1, c, hb, hp => by
      obtain ⟨b, hb0⟩ := hb 0 (Nat.succ_pos p)
      simp at hb0
  | some b :: rest, 0, c, _, hp => by simp [dealloc_scan, List.set]
  | some b :: rest, p + 1, c, hb, hp => by
      simp at hp
      have := dealloc_scan_live rest p c
        (fun j hj => by simpa using hb (j + 1) (Nat.succ_lt_succ hj)) hp
      simp [dealloc_scan, this, List.set]

theorem noGaps_backed_before : ∀ (l : List Slot) (p : Nat) (c : Bool), noGaps l = true →
    l[p]? = some (some c) → ∀ j, j < p → ∃ b, l[j]? = some (some b)
  | [], p, c, _, hp => by simp at hp
  | _ :: _, 0, c, _, _ => fun j hj => absurd hj (Nat.not_lt_zero j)
  | s :: rest, p + 1, c, hg, hp => by
      simp at hp
      cases s with
      | none =>
          exfalso
          simp only [noGaps, List.all_eq_true] at hg
          have : some c ∈ rest := List.getElem?_mem hp
          have := hg _ this
          simp at this
      | some sb =>
          intro j hj
          match j with
          | 0 => exact ⟨sb, by simp⟩
          | j + 1 =>
              simp only [noGaps] at hg
              obtain ⟨b, hb⟩ := noGaps_backed_before rest p c hg hp j (Nat.lt_of_succ_lt_succ hj)
              exact ⟨b, by simpa using hb⟩

/-! ## grow_pool lemmas -/

theorem grow_pool_fields (a : op_allocator) :
    (grow_pool a).1.object_size = a.object_size ∧
    (grow_pool a).1.initial_count = a.initial_count ∧
    (grow_pool a).1.use_chunks = a.use_chunks ∧
    (grow_pool a).1.use_linear = a.use_linear ∧
    (grow_pool a).1.initialized = a.initialized := by
  unfold grow_pool fill_chunks
  cases hc : a.use_chunks <;> simp [hc]

theorem grow_pool_snd (a : op_allocator) : (grow_pool a).2 = true := by
  unfold grow_pool
  cases hc : a.use_chunks <;> simp [hc]

theorem grow_pool_max (a : op_allocator) :
    (grow_pool a).1.maximum_objects =
      if a.use_linear then a.maximum_objects + a.initial_count
      else a.maximum_objects * 2 := by
  unfold grow_pool fill_chunks
  cases hc : a.use_chunks <;> cases hl : a.use_linear <;> simp [hc, hl]

theorem grow_pool_pool (a : op_allocator) (h : a.pool.length = a.maximum_objects) :
    (grow_pool a).1.pool =
      a.pool ++ List.replicate (if a.use_linear then a.initial_count else a.maximum_objects)
        (if a.use_chunks then some false else none) := by
  unfold grow_pool fill_chunks
  cases hc : a.use_chunks <;> cases hl : a.use_linear <;> simp [hc, hl]
  · -- doubling, no chunks: the appended-count arithmetic
    omega
  · -- doubling, chunks
    have h1 : a.maximum_objects * 2 - a.maximum_objects = a.maximum_objects := by omega
    rw [h1, ← h]
    have := fill_loop_spec a.pool a.pool.length a.pool.length (Nat.le_refl _)
    simpa [h] using this
  · -- linear, chunks
    rw [← h]
    have := fill_loop_spec a.pool a.initial_count a.initial_count (Nat.le_refl _)
    simpa using this

/-! ## initialize lemmas -/

theorem init_spec (osz C : Nat) (m : op_ll_allocator_mode) :
    op_ll_initialize_allocator osz C m =
      { object_size := osz, initial_count := C, maximum_objects := C,
        use_chunks := m.use_chunks, use_linear := m.use_linear, initialized := true,
        pool := List.replicate C (if m.use_chunks then some false else none) } := by
  unfold op_ll_initialize_allocator fill_chunks
  cases hm : m.use_chunks <;> simp [hm]
  have := fill_loop_spec ([] : List Slot) C C (Nat.le_refl _)
  simpa using this

theorem Inv_init (osz C : Nat) (m : op_ll_allocator_mode) (hC : 0 < C) :
    Inv (op_ll_initialize_allocator osz C m) := by
  rw [init_spec]
  refine ⟨?_, by simp, rfl, hC, Nat.le_refl C⟩
  cases m.use_chunks <;>
    simp [noGaps_replicate_none, noGaps_replicate_backed]

/-! ## op_ll_allocate_object lemmas -/

theorem alloc_found (a : op_allocator) (i : Nat) (hinit : a.initialized = true)
    (hf : find_slot a.pool = some i) :
    op_ll_allocate_object a =
      ⟨{ a with pool := a.pool.set i (some true) }, some i, false, []⟩ := by
  simp [op_ll_allocate_object, hinit, hf]

theorem alloc_step (a : op_allocator) (hInv : Inv a) :
    Inv (op_ll_allocate_object a).allocator ∧
    (op_ll_allocate_object a).rv.isSome = true ∧
    countTrue (op_ll_allocate_object a).allocator.pool = countTrue a.pool + 1 := by
  obtain ⟨hg, hlen, hinit, hCpos, hCle⟩ := hInv
  cases hf : find_slot a.pool with
  | some i =>
      rw [alloc_found a i hinit hf]
      obtain ⟨hlt, hslot, hbefore⟩ := find_slot_some _ _ hf
      refine ⟨⟨?_, by simp [hlen], hinit, hCpos, hCle⟩, rfl, countTrue_set_true _ _ hslot⟩
      rcases hslot with h1 | h1
      · exact noGaps_set_first_none _ _ true h1 hbefore hg
      · exact noGaps_set_backed _ _ false true h1 hg
  | none =>
      have hall := find_slot_none _ hf
      have hpool : a.pool = List.replicate a.pool.length (some true) :=
        List.eq_replicate_of_mem hall
      have hG : 0 < (if a.use_linear then a.initial_count else a.maximum_objects) := by
        cases a.use_linear <;> simp <;> omega
      obtain ⟨G1, hG1⟩ :
          ∃ k, (if a.use_linear then a.initial_count else a.maximum_objects) = k + 1 :=
        ⟨(if a.use_linear then a.initial_count else a.maximum_objects) - 1, by omega⟩
      have s0avail : (if a.use_chunks then (some false : Slot) else none) = none ∨
          (if a.use_chunks then (some false : Slot) else none) = some false := by
        cases a.use_chunks <;> simp
      have hfind2 : find_slot ((grow_pool a).1.pool) = some a.pool.length := by
        rw [grow_pool_pool a hlen, hG1]
        conv_lhs => rw [hpool]
        rw [List.replicate_succ, find_slot_replicate_true,
          find_slot_avail_head _ _ s0avail]
        simp
      have hres : op_ll_allocate_object a =
          ⟨{ (grow_pool a).1 with
              pool := (grow_pool a).1.pool.set a.pool.length (some true) },
            some a.pool.length, true, []⟩ := by
        simp [op_ll_allocate_object, hinit, hf, grow_pool_snd a, hfind2]
      rw [hres]
      have hpool2 : (grow_pool a).1.pool.set a.pool.length (some true) =
          a.pool ++ some true ::
            List.replicate G1 (if a.use_chunks then (some false : Slot) else none) := by
        rw [grow_pool_pool a hlen, hG1, List.replicate_succ, set_append_len]
      obtain ⟨hfo, hfi, hfc, hfl, hfin⟩ := grow_pool_fields a
      have hmax := grow_pool_max a
      have hnog : noGaps (a.pool ++ some true ::
          List.replicate G1 (if a.use_chunks then (some false : Slot) else none)) = true := by
        refine noGaps_append_of_backed _ _ (fun s hs => ⟨true, hall s hs⟩) ?_
        show noGaps (List.replicate G1 _) = true
        cases a.use_chunks <;>
          simp [noGaps_replicate_none, noGaps_replicate_backed]
      have hcnt : countTrue (a.pool ++ some true ::
          List.replicate G1 (if a.use_chunks then (some false : Slot) else none)) =
          countTrue a.pool + 1 := by
        rw [countTrue_append]
        have : countTrue (List.replicate G1
            (if a.use_chunks then (some false : Slot) else none)) = 0 := by
          refine countTrue_replicate_of_ne _ _ ?_
          cases a.use_chunks <;> simp
        simp [countTrue, this]
      refine ⟨⟨by simpa [hpool2] using hnog, ?_, by simpa using hfin ▸ hinit, ?_, ?_⟩,
        rfl, by simpa [hpool2] using hcnt⟩
      · show ((grow_pool a).1.pool.set a.pool.length (some true)).length =
          (grow_pool a).1.maximum_objects
        rw [hpool2, hmax]
        have := hG1
        cases hl : a.use_linear <;> simp [hl] at this ⊢ <;> omega
      · simpa [hfi] using hCpos
      · show (grow_pool a).1.initial_count ≤ (grow_pool a).1.maximum_objects
        rw [hfi, hmax]
        cases a.use_linear <;> simp <;> omega

/-! ## op_ll_deallocate_object lemmas -/

theorem dealloc_step (a : op_allocator) (p : Nat) (hInv : Inv a)
    (hp : a.pool[p]? = some (some true)) :
    dealloc_scan p a.pool = some (a.pool.set p (some false)) ∧
    Inv { a with pool := a.pool.set p (some false) } ∧
    countTrue (a.pool.set p (some false)) + 1 = countTrue a.pool := by
  obtain ⟨hg, hlen, hinit, hCpos, hCle⟩ := hInv
  refine ⟨dealloc_scan_live a.pool p true (noGaps_backed_before a.pool p true hg hp) hp,
    ⟨noGaps_set_backed _ _ true false hp hg, by simp [hlen], hinit, hCpos, hCle⟩,
    countTrue_set_false _ _ hp⟩

/-! ## Trace lemmas -/

theorem runTrace_spec : ∀ (ops : List PoolOp) (a a1 : op_allocator), Inv a →
    runTrace a ops = some a1 →
    Inv a1 ∧ countTrue a1.pool + countDeallocs ops = countTrue a.pool + countAllocs ops
  | [], a, a1, hI, h => by
      simp [runTrace] at h
      subst h
      exact ⟨hI, by simp [countAllocs, countDeallocs]⟩
  | PoolOp.alloc :: rest, a, a1, hI, h => by
      obtain ⟨hI2, hsome, hcnt⟩ := alloc_step a hI
      obtain ⟨i, hi⟩ := Option.isSome_iff_exists.mp hsome
      rw [runTrace, show runOp a PoolOp.alloc = some (op_ll_allocate_object a).allocator by
        simp [runOp, hi]] at h
      obtain ⟨hI3, hc3⟩ := runTrace_spec rest _ a1 hI2 h
      refine ⟨hI3, ?_⟩
      simp only [countAllocs, countDeallocs] at hc3 ⊢
      omega
  | PoolOp.dealloc p :: rest, a, a1, hI, h => by
      rw [runTrace] at h
      by_cases hp : a.pool[p]? = some (some true)
      · obtain ⟨hscan, hI2, hcnt⟩ := dealloc_step a p hI hp
        rw [show runOp a (PoolOp.dealloc p) =
              some { a with pool := a.pool.set p (some false) } by
            simp [runOp, hp, hscan]] at h
        obtain ⟨hI3, hc3⟩ := runTrace_spec rest _ a1 hI2 h
        refine ⟨hI3, ?_⟩
        simp only [countAllocs, countDeallocs] at hc3 ⊢
        omega
      · rw [show runOp a (PoolOp.dealloc p) = none by simp [runOp, hp]] at h
        simp at h

/-! ## growN / growTrace lemmas -/

theorem growN_fields (a : op_allocator) : ∀ n,
    (growN a n).initial_count = a.initial_count ∧
    (growN a n).use_chunks = a.use_chunks ∧
    (growN a n).use_linear = a.use_linear
  | 0 => ⟨rfl, rfl, rfl⟩
  | n + 1 => by
      obtain ⟨h1, h2, h3⟩ := growN_fields a n
      obtain ⟨_, g1, g2, g3, _⟩ := grow_pool_fields (growN a n)
      exact ⟨by rw [growN, g1, h1], by rw [growN, g2, h2], by rw [growN, g3, h3]⟩

theorem growN_max_linear (a : op_allocator) (hl : a.use_linear = true) : ∀ n,
    (growN a n).maximum_objects = a.maximum_objects + n * a.initial_count
  | 0 => by simp [growN]
  | n + 1 => by
      obtain ⟨h1, _, h3⟩ := growN_fields a n
      have hm := grow_pool_max (growN a n)
      rw [growN, hm, h3, hl, if_pos rfl, h1, growN_max_linear a hl n, Nat.succ_mul]
      omega

theorem growN_max_doubling (a : op_allocator) (hl : a.use_linear = false) : ∀ n,
    (growN a n).maximum_objects = a.maximum_objects * 2 ^ n
  | 0 => by simp [growN]
  | n + 1 => by
      obtain ⟨_, _, h3⟩ := growN_fields a n
      have hm := grow_pool_max (growN a n)
      rw [growN, hm, h3, hl, if_neg (by simp), growN_max_doubling a hl n, pow_succ,
        Nat.mul_assoc]

theorem growTrace_fst (a : op_allocator) : ∀ n, (growTrace a n).1 = growN a n
  | 0 => rfl
  | n + 1 => by simp [growTrace, growN, growTrace_fst a n]

theorem growTrace_snd (a : op_allocator) : ∀ n, (growTrace a n).2 =
    0 :: (List.range n).map (fun k => (growN a k).maximum_objects)
  | 0 => by simp [growTrace]
  | n + 1 => by
      simp [growTrace, growTrace_snd a n, growTrace_fst a n, List.range_succ]

/-! ## Closed forms for the deinitialize free loops -/

theorem linOffsets_formula (C : Nat) (hC : 0 < C) : ∀ (n j : Nat),
    linOffsets C ((j + n) * C) (j * C) = (List.range' j n).map (· * C)
  | 0, j => by
      rw [linOffsets]
      simp
  | n + 1, j => by
      rw [linOffsets, dif_pos ⟨hC, by
        have : j < j + (n + 1) := by omega
        exact Nat.mul_lt_mul_of_lt_of_le this (Nat.le_refl C) hC⟩]
      rw [show j * C + C = (j + 1) * C by ring,
        show (j + (n + 1)) * C = ((j + 1) + n) * C by ring,
        linOffsets_formula C hC n (j + 1)]
      rfl

theorem dblOffsets_formula (C : Nat) (hC : 0 < C) : ∀ (n j : Nat),
    dblOffsets (C * 2 ^ (j + n)) (C * 2 ^ j) = (List.range' j n).map (fun k => C * 2 ^ k)
  | 0, j => by
      rw [dblOffsets]
      simp
  | n + 1, j => by
      rw [dblOffsets, dif_pos ⟨Nat.mul_pos hC (Nat.pos_pow_of_pos j (by omega)), by
        have h2 : (2 : Nat) ^ j < 2 ^ (j + (n + 1)) :=
          Nat.pow_lt_pow_right (by omega) (by omega)
        exact Nat.mul_lt_mul_of_le_of_lt (Nat.le_refl C) h2 hC⟩]
      rw [show 2 * (C * 2 ^ j) = C * 2 ^ (j + 1) by ring,
        show j + (n + 1) = (j + 1) + n by omega,
        dblOffsets_formula C hC n (j + 1)]
      rfl

/-! ## get_stats lemmas -/

theorem get_stats_active (a : op_allocator) (hInv : Inv a) :
    (op_ll_get_allocator_stats a).1.active_objects = countTrue a.pool := by
  obtain ⟨hg, _, hinit, _, _⟩ := hInv
  simp [op_ll_get_allocator_stats, hinit, countActive_eq_countTrue _ hg]

theorem countTrue_init (osz C : Nat) (m : op_ll_allocator_mode) :
    countTrue (op_ll_initialize_allocator osz C m).pool = 0 := by
  rw [init_spec]
  refine countTrue_replicate_of_ne _ _ ?_
  cases m.use_chunks <;> simp

/-! ## allocN characterization up to the initial capacity -/

theorem allocN_le (osz C : Nat) (m : op_ll_allocator_mode) : ∀ k, k ≤ C →
    allocN (op_ll_initialize_allocator osz C m) k =
      { object_size := osz, initial_count := C, maximum_objects := C,
        use_chunks := m.use_chunks, use_linear := m.use_linear, initialized := true,
        pool := List.replicate k (some true) ++
          List.replicate (C - k) (if m.use_chunks then some false else none) }
  | 0, _ => by
      rw [allocN, init_spec]
      simp
  | k + 1, h => by
      rw [allocN, allocN_le osz C m k (Nat.le_of_succ_le h)]
      have s0avail : (if m.use_chunks then (some false : Slot) else none) = none ∨
          (if m.use_chunks then (some false : Slot) else none) = some false := by
        cases m.use_chunks <;> simp
      have hck : C - k = (C - (k + 1)) + 1 := by omega
      have hfind : find_slot (List.replicate k (some true) ++
          List.replicate (C - k) (if m.use_chunks then (some false : Slot) else none)) =
          some k := by
        rw [hck, List.replicate_succ, find_slot_replicate_true,
          find_slot_avail_head _ _ s0avail]
        simp
      rw [alloc_found _ k rfl hfind]
      simp only [AllocateResult.allocator]
      congr 1
      rw [hck, List.replicate_succ,
        set_append_at (List.replicate k (some true)) _ _ _ k (by simp)]
      simp [List.replicate_succ' k (some true : Slot), List.append_assoc]

/-- Shape of `op_ll_allocate_object` when the first scan finds nothing: the
grow branch is taken and the returned state carries the grown capacity. -/
theorem alloc_grow_shape (a : op_allocator) (hinit : a.initialized = true)
    (hf : find_slot a.pool = none) :
    (op_ll_allocate_object a).grew = true ∧
    (op_ll_allocate_object a).allocator.maximum_objects =
      (grow_pool a).1.maximum_objects := by
  unfold op_ll_allocate_object
  rw [hinit, hf]
  cases hf2 : find_slot (grow_pool a).1.pool <;> simp [hf2, grow_pool_snd a]

/-! ## Claim theorems -/

/-- C7: for a handle initialized with capacity `C`, after `n` successful
growth events `maximum_objects` equals `C * 2 ^ n` under doubling mode and
`C + n * C` under linear mode. -/
theorem claim_C7 (osz C n : Nat) (m : op_ll_allocator_mode) :
    (growN (op_ll_initialize_allocator osz C m) n).maximum_objects =
      if m.use_linear then C + n * C else C * 2 ^ n := by
  have hl0 : (op_ll_initialize_allocator osz C m).use_linear = m.use_linear := by
    rw [init_spec]
  have hmax : (op_ll_initialize_allocator osz C m).maximum_objects = C := by
    rw [init_spec]
  have hcnt : (op_ll_initialize_allocator osz C m).initial_count = C := by
    rw [init_spec]
  cases hl : m.use_linear
  · rw [if_neg (by simp), growN_max_doubling _ (hl0.trans hl) n, hmax]
  · rw [if_pos rfl, growN_max_linear _ (hl0.trans hl) n, hmax, hcnt]

/-- C1: for a chunked-layout handle initialized with positive capacity `C`
and grown `n` times, the directory offsets at which
`op_ll_deinitialize_allocator` frees backing blocks (one block at offsets
`0, C, 2C, ...` under linear growth; the block at offset 0 and then one at
each offset `C, 2C, 4C, ...` under doubling growth, all below
`maximum_objects`) coincide exactly with the chunk start offsets at which
`fill_chunks` installed each contiguous backing block at initialize and at
each grow. -/
theorem claim_C1 (osz C n : Nat) (hC : 0 < C) (m : op_ll_allocator_mode)
    (hm : m.use_chunks = true) :
    deinit_free_offsets (growN (op_ll_initialize_allocator osz C m) n) =
      fill_chunk_starts (op_ll_initialize_allocator osz C m) n := by
  have hl0 : (op_ll_initialize_allocator osz C m).use_linear = m.use_linear := by
    rw [init_spec]
  have hmax : (op_ll_initialize_allocator osz C m).maximum_objects = C := by
    rw [init_spec]
  have hcnt : (op_ll_initialize_allocator osz C m).initial_count = C := by
    rw [init_spec]
  obtain ⟨hgc, _, hgl⟩ := growN_fields (op_ll_initialize_allocator osz C m) n
  rw [fill_chunk_starts, growTrace_snd]
  cases hl : m.use_linear
  · -- doubling growth
    have hgrow : ∀ k, (growN (op_ll_initialize_allocator osz C m) k).maximum_objects =
        C * 2 ^ k := fun k => by
      rw [growN_max_doubling _ (hl0.trans hl) k, hmax]
    rw [deinit_free_offsets, if_neg (by rw [hgl, hl0, hl]; simp), hgc, hcnt, hgrow n]
    have hdbl := dblOffsets_formula C hC n 0
    simp only [Nat.zero_add, pow_zero, Nat.mul_one] at hdbl
    rw [hdbl]
    congr 1
    rw [← List.range_eq_range']
    exact List.map_eq_map_iff.mpr fun k _ => (hgrow k).symm
  · -- linear growth
    have hgrow : ∀ k, (growN (op_ll_initialize_allocator osz C m) k).maximum_objects =
        C + k * C := fun k => by
      rw [growN_max_linear _ (hl0.trans hl) k, hmax, hcnt]
    rw [deinit_free_offsets, if_pos (by rw [hgl, hl0, hl]), hgc, hcnt, hgrow n]
    have hlin := linOffsets_formula C hC (n + 1) 0
    simp only [Nat.zero_add, Nat.zero_mul] at hlin
    rw [show C + n * C = (n + 1) * C by ring, hlin,
      show List.range' 0 (n + 1) = 0 :: List.range' 1 n from rfl]
    simp only [List.map_cons, Nat.zero_mul]
    congr 1
    rw [List.range'_eq_map_range, List.map_map]
    exact List.map_eq_map_iff.mpr fun k _ => by
      simp [Function.comp, hgrow k]
      ring

/-- C5: for every initialized handle and every finite sequence of
successful allocate and deallocate calls, the `active_objects` field
returned by `op_ll_get_allocator_stats` equals the number of objects
allocated and not yet deallocated, even though the counting scan stops at
the first directory entry with no backing storage. -/
theorem claim_C5 (osz C : Nat) (hC : 0 < C) (m : op_ll_allocator_mode)
    (ops : List PoolOp) (a : op_allocator)
    (h : runTrace (op_ll_initialize_allocator osz C m) ops = some a) :
    (op_ll_get_allocator_stats a).1.active_objects + countDeallocs ops =
      countAllocs ops := by
  obtain ⟨hI, hcnt⟩ := runTrace_spec ops _ a (Inv_init osz C m hC) h
  rw [get_stats_active a hI]
  have h0 := countTrue_init osz C m
  omega

/-- C6: for each of the four growth modes, after initializing with capacity
`C > 0` the first `C` successful allocate calls cause no growth
(`maximum_objects` stays `C`), and the `(C+1)`-th allocate call triggers
exactly one growth step. -/
theorem claim_C6 (osz C : Nat) (hC : 0 < C) (m : op_ll_allocator_mode) :
    (∀ k, k ≤ C → (allocN (op_ll_initialize_allocator osz C m) k).maximum_objects = C) ∧
    (∀ k, k < C →
      (op_ll_allocate_object (allocN (op_ll_initialize_allocator osz C m) k)).grew
        = false) ∧
    (op_ll_allocate_object (allocN (op_ll_initialize_allocator osz C m) C)).grew
      = true ∧
    (allocN (op_ll_initialize_allocator osz C m) (C + 1)).maximum_objects =
      (if m.use_linear then C + C else C * 2) := by
  have hstate := allocN_le osz C m
  have s0avail : (if m.use_chunks then (some false : Slot) else none) = none ∨
      (if m.use_chunks then (some false : Slot) else none) = some false := by
    cases m.use_chunks <;> simp
  have hfnone : find_slot (allocN (op_ll_initialize_allocator osz C m) C).pool = none := by
    rw [hstate C (Nat.le_refl C)]
    show find_slot (List.replicate C (some true) ++ _) = none
    rw [Nat.sub_self, find_slot_replicate_true]
    rfl
  have hinitC : (allocN (op_ll_initialize_allocator osz C m) C).initialized = true := by
    rw [hstate C (Nat.le_refl C)]
  refine ⟨fun k hk => by rw [hstate k hk], ?_, (alloc_grow_shape _ hinitC hfnone).1, ?_⟩
  · intro k hk
    rw [hstate k (Nat.le_of_lt hk)]
    have hck : C - k = (C - (k + 1)) + 1 := by omega
    have hfind : find_slot (List.replicate k (some true) ++
        List.replicate (C - k) (if m.use_chunks then (some false : Slot) else none)) =
        some k := by
      rw [hck, List.replicate_succ, find_slot_replicate_true,
        find_slot_avail_head _ _ s0avail]
      simp
    rw [alloc_found _ k rfl hfind]
  · have h2 := (alloc_grow_shape _ hinitC hfnone).2
    show (op_ll_allocate_object
      (allocN (op_ll_initialize_allocator osz C m) C)).allocator.maximum_objects = _
    rw [h2, grow_pool_max, hstate C (Nat.le_refl C)]

/-- C8: for every handle satisfying the engine invariant with at least one
in-use slot, deallocating that object and then calling allocate returns a
pointer to a freed (not-in-use) slot rather than growing the pool:
`maximum_objects` and the active count are unchanged by the pair. -/
theorem claim_C8 (a : op_allocator) (i : Nat) (hInv : Inv a)
    (hi : a.pool[i]? = some (some true)) :
    ∃ b j, (op_ll_deallocate_object (some a) (some i)).allocator = some b ∧
      (op_ll_deallocate_object (some a) (some i)).faulted = false ∧
      (op_ll_allocate_object b).rv = some j ∧
      b.pool[j]? = some (some false) ∧
      (op_ll_allocate_object b).grew = false ∧
      (op_ll_allocate_object b).allocator.maximum_objects = a.maximum_objects ∧
      (op_ll_get_allocator_stats (op_ll_allocate_object b).allocator).1.active_objects =
        (op_ll_get_allocator_stats a).1.active_objects := by
  obtain ⟨hscan, hI2, hcnt⟩ := dealloc_step a i hInv hi
  have hdeal : op_ll_deallocate_object (some a) (some i) =
      ⟨some { a with pool := a.pool.set i (some false) }, [], false⟩ := by
    simp [op_ll_deallocate_object, hscan]
  have hbi : (a.pool.set i (some false))[i]? = some (some false) :=
    List.getElem?_set_eq (lt_of_getElem?_some hi)
  cases hf : find_slot (a.pool.set i (some false)) with
  | none =>
      exfalso
      have hall := find_slot_none _ hf
      have := hall _ (List.getElem?_mem hbi)
      simp at this
  | some j =>
      obtain ⟨hjlt, hslot, hbefore⟩ := find_slot_some _ _ hf
      have hjslot : (a.pool.set i (some false))[j]? = some (some false) := by
        rcases hslot with h1 | h1
        · exfalso
          rcases Nat.lt_trichotomy j i with hji | hji | hji
          · obtain ⟨c, hc⟩ :=
              noGaps_backed_before _ i false hI2.1 hbi j hji
            rw [hc] at h1
            exact Option.noConfusion (Option.some.inj h1)
          · subst hji
            rw [hbi] at h1
            exact Option.noConfusion (Option.some.inj h1)
          · have := hbefore i hji
            rw [hbi] at this
            simp at this
        · exact h1
      have hbinit : ({ a with pool := a.pool.set i (some false) } :
          op_allocator).initialized = true := hI2.2.2.1
      have halloc := alloc_found { a with pool := a.pool.set i (some false) } j hbinit hf
      refine ⟨{ a with pool := a.pool.set i (some false) }, j, by rw [hdeal], by rw [hdeal],
        by rw [halloc], hjslot, by rw [halloc], by rw [halloc], ?_⟩
      obtain ⟨hI3, _, hcnt3⟩ :=
        alloc_step { a with pool := a.pool.set i (some false) } hI2
      rw [get_stats_active _ hI3, get_stats_active a hInv, hcnt3]
      show countTrue (a.pool.set i (some false)) + 1 = countTrue a.pool
      exact hcnt

/-- C10: a successful allocate never returns a slot whose `in_use` flag was
already set: the selected index was unallocated (NULL entry or beyond the
old directory) or backed but not in use, and afterwards it is backed and in
use; live objects therefore occupy pairwise distinct slots. -/
theorem claim_C10 (a : op_allocator) (i : Nat)
    (hlen : a.pool.length = a.maximum_objects)
    (h : (op_ll_allocate_object a).rv = some i) :
    (a.pool[i]? = some none ∨ a.pool[i]? = some (some false) ∨ a.pool[i]? = none) ∧
    (op_ll_allocate_object a).allocator.pool[i]? = some (some true) := by
  by_cases hinit : a.initialized = true
  case neg =>
      exfalso
      have hfalse : a.initialized = false := by
        cases hb : a.initialized
        · rfl
        · exact absurd hb hinit
      rw [show op_ll_allocate_object a = ⟨a, none, false,
        ["Attempted to allocate from uninitialized allocator.",
         "Could not allocate desired object."]⟩ by
          simp [op_ll_allocate_object, hfalse]] at h
      exact Option.noConfusion h
  case pos =>
  cases hf : find_slot a.pool with
  | some i0 =>
      rw [alloc_found a i0 hinit hf] at h
      obtain rfl : i0 = i := Option.some.inj h
      obtain ⟨hlt, hslot, _⟩ := find_slot_some _ _ hf
      refine ⟨by tauto, ?_⟩
      rw [alloc_found a i0 hinit hf]
      exact List.getElem?_set_eq hlt
  | none =>
      have hall := find_slot_none _ hf
      have hpool : a.pool = List.replicate a.pool.length (some true) :=
        List.eq_replicate_of_mem hall
      have hgpool := grow_pool_pool a hlen
      have s0avail : (if a.use_chunks then (some false : Slot) else none) = none ∨
          (if a.use_chunks then (some false : Slot) else none) = some false := by
        cases a.use_chunks <;> simp
      cases hGe : (if a.use_linear then a.initial_count else a.maximum_objects) with
      | zero =>
          exfalso
          have hf2 : find_slot (grow_pool a).1.pool = none := by
            rw [hgpool, hGe]
            conv_lhs => rw [hpool]
            rw [show List.replicate 0 (if a.use_chunks then (some false : Slot) else none)
              = [] from rfl, find_slot_replicate_true]
            rfl
          rw [show (op_ll_allocate_object a).rv = none by
            simp [op_ll_allocate_object, hinit, hf, grow_pool_snd a, hf2]] at h
          exact Option.noConfusion h
      | succ G1 =>
          have hf2 : find_slot (grow_pool a).1.pool = some a.pool.length := by
            rw [hgpool, hGe]
            conv_lhs => rw [hpool]
            rw [List.replicate_succ, find_slot_replicate_true,
              find_slot_avail_head _ _ s0avail]
            simp
          have hres : op_ll_allocate_object a =
              ⟨{ (grow_pool a).1 with
                  pool := (grow_pool a).1.pool.set a.pool.length (some true) },
                some a.pool.length, true, []⟩ := by
            simp [op_ll_allocate_object, hinit, hf, grow_pool_snd a, hf2]
          rw [hres] at h
          obtain rfl : a.pool.length = i := Option.some.inj h
          refine ⟨Or.inr (Or.inr (List.getElem?_eq_none_iff.mpr (Nat.le_refl _))), ?_⟩
          rw [hres]
          show ((grow_pool a).1.pool.set a.pool.length (some true))[a.pool.length]?
            = some (some true)
          refine List.getElem?_set_eq ?_
          rw [hgpool, hGe]
          simp

/-- C2 is refuted by the code: `grow_pool` executes
`allocator->pool = realloc(allocator->pool, ...)`, so when `realloc` fails
it stores the returned NULL straight into the handle.  Evaluated at a
linear-mode handle with one live object and a failing `realloc`: the
directory pointer becomes NULL (first component `none`) instead of still
referring to the old one-entry directory `[some true]`, leaving the handle
unusable (every later directory scan dereferences NULL) and the old
directory leaked.  `maximum_objects` (second component) is unchanged and
the call reports failure (third component), but the prior state is not
preserved. -/
theorem claim_C2 :
    grow_pool_mem live_handle false true = (none, 1, false) ∧
    live_handle.pool = [some true] ∧
    (none : Option (List Slot)) ≠ some live_handle.pool := by decide

/-- C3 is refuted by the code: `fill_chunks` computes
`chunk_size = object_count * entry_size` and then calls
`calloc(object_count, chunk_size)`, obtaining
`object_count * object_count * entry_size` bytes.  At `sizeof(_ab_t) = 4`,
`object_size = 4`, `object_count = 2` the chunk allocation is 32 bytes,
not the `2 * entry_size = 16` bytes the claim (and the spec's intended
behaviour) requires. -/
theorem claim_C3 :
    entry_size 4 4 = 8 ∧
    fill_chunks_alloc_bytes 4 4 2 = 32 ∧
    fill_chunks_alloc_bytes 4 4 2 ≠ 2 * entry_size 4 4 := by decide

/-- C4 is refuted by the code: `op_ll_deallocate_object` dereferences
`allocator->pool[i]->data` with no NULL check, so on a freshly initialized
individual-layout handle (both directory entries NULL) a foreign non-null
pointer makes the scan dereference the NULL entry at index 0 (modelled as
`faulted = true`) instead of scanning the whole directory as a silent
no-op. -/
theorem claim_C4 :
    (op_ll_initialize_allocator 4 2 .OP_DOUBLING_INDIVIDUAL).pool = [none, none] ∧
    (op_ll_deallocate_object
      (some (op_ll_initialize_allocator 4 2 .OP_DOUBLING_INDIVIDUAL))
      (some 5)).faulted = true := by decide

/-- C9 as stated is false: on a handle that is not initialized,
`op_ll_get_allocator_stats` contains no `op_error_handler` call at all — it
returns the zeroed structure silently (empty error list), so it does not
report `InvalidHandle` through the error hook as the claim asserts for all
three operations. -/
theorem claim_C9_counterexample :
    stale_handle.initialized = false ∧
    (op_ll_get_allocator_stats stale_handle).2 = [] ∧
    (op_ll_get_allocator_stats stale_handle).1 = ⟨0, 0, 0⟩ := by decide

/-- C9 amended: on a handle that is not in the initialized state,
`op_ll_allocate_object` reports through the error hook and returns a null
pointer with the state unchanged; `op_ll_get_allocator_stats` returns empty
stats silently, reporting nothing; `op_ll_deallocate_object` consults only
pointer nullness — it reports (InvalidArgument) for a NULL handle but for a
non-null non-initialized handle it reports nothing and proceeds to scan the
directory. -/
theorem claim_C9_amended (a : op_allocator) (h : a.initialized = false) (p q : Nat) :
    (op_ll_allocate_object a).rv = none ∧
    (op_ll_allocate_object a).allocator = a ∧
    (op_ll_allocate_object a).errors ≠ [] ∧
    (op_ll_get_allocator_stats a).1 = ⟨0, 0, 0⟩ ∧
    (op_ll_get_allocator_stats a).2 = [] ∧
    (op_ll_deallocate_object none (some q)).errors ≠ [] ∧
    (op_ll_deallocate_object none (some q)).allocator = none ∧
    (op_ll_deallocate_object (some a) (some p)).errors = [] := by
  refine ⟨?_, ?_, ?_, ?_, ?_, ?_, ?_, ?_⟩
  · simp [op_ll_allocate_object, h]
  · simp [op_ll_allocate_object, h]
  · simp [op_ll_allocate_object, h]
  · simp [op_ll_get_allocator_stats, h]
  · simp [op_ll_get_allocator_stats, h]
  · simp [op_ll_deallocate_object]
  · simp [op_ll_deallocate_object]
  · cases hs : dealloc_scan p a.pool <;> simp [op_ll_deallocate_object, hs]

/-! ## Witnesses -/

theorem claim_C1_witness :
    0 < 2 ∧ op_ll_allocator_mode.OP_DOUBLING_CHUNK.use_chunks = true ∧
    deinit_free_offsets (growN (op_ll_initialize_allocator 1 2 .OP_DOUBLING_CHUNK) 3) =
      fill_chunk_starts (op_ll_initialize_allocator 1 2 .OP_DOUBLING_CHUNK) 3 :=
  ⟨by decide, by decide, claim_C1 1 2 3 (by decide) _ (by decide)⟩

theorem claim_C5_witness :
    0 < 1 ∧
    runTrace (op_ll_initialize_allocator 1 1 .OP_LINEAR_CHUNK)
        [PoolOp.alloc, PoolOp.dealloc 0, PoolOp.alloc] = some live_handle ∧
    (op_ll_get_allocator_stats live_handle).1.active_objects +
      countDeallocs [PoolOp.alloc, PoolOp.dealloc 0, PoolOp.alloc] =
      countAllocs [PoolOp.alloc, PoolOp.dealloc 0, PoolOp.alloc] :=
  ⟨by decide, by decide,
    claim_C5 1 1 (by decide) op_ll_allocator_mode.OP_LINEAR_CHUNK
      [PoolOp.alloc, PoolOp.dealloc 0, PoolOp.alloc] live_handle (by decide)⟩

theorem claim_C6_witness :
    0 < 2 ∧
    ((∀ k, k ≤ 2 →
        (allocN (op_ll_initialize_allocator 1 2 .OP_LINEAR_CHUNK) k).maximum_objects
          = 2) ∧
      (∀ k, k < 2 →
        (op_ll_allocate_object
          (allocN (op_ll_initialize_allocator 1 2 .OP_LINEAR_CHUNK) k)).grew = false) ∧
      (op_ll_allocate_object
        (allocN (op_ll_initialize_allocator 1 2 .OP_LINEAR_CHUNK) 2)).grew = true ∧
      (allocN (op_ll_initialize_allocator 1 2 .OP_LINEAR_CHUNK) 3).maximum_objects =
        (if op_ll_allocator_mode.OP_LINEAR_CHUNK.use_linear then 2 + 2 else 2 * 2)) :=
  ⟨by decide, claim_C6 1 2 (by decide) .OP_LINEAR_CHUNK⟩

theorem claim_C8_witness :
    Inv live_handle ∧
    live_handle.pool[0]? = some (some true) ∧
    (∃ b j,
      (op_ll_deallocate_object (some live_handle) (some 0)).allocator = some b ∧
      (op_ll_deallocate_object (some live_handle) (some 0)).faulted = false ∧
      (op_ll_allocate_object b).rv = some j ∧
      b.pool[j]? = some (some false) ∧
      (op_ll_allocate_object b).grew = false ∧
      (op_ll_allocate_object b).allocator.maximum_objects =
        live_handle.maximum_objects ∧
      (op_ll_get_allocator_stats (op_ll_allocate_object b).allocator).1.active_objects =
        (op_ll_get_allocator_stats live_handle).1.active_objects) :=
  ⟨by decide, by decide, claim_C8 _ 0 (by decide) (by decide)⟩

theorem claim_C10_witness :
    (op_ll_initialize_allocator 1 1 .OP_LINEAR_CHUNK).pool.length =
      (op_ll_initialize_allocator 1 1 .OP_LINEAR_CHUNK).maximum_objects ∧
    (op_ll_allocate_object (op_ll_initialize_allocator 1 1 .OP_LINEAR_CHUNK)).rv
      = some 0 ∧
    (((op_ll_initialize_allocator 1 1 .OP_LINEAR_CHUNK).pool[0]? = some none ∨
      (op_ll_initialize_allocator 1 1 .OP_LINEAR_CHUNK).pool[0]? = some (some false) ∨
      (op_ll_initialize_allocator 1 1 .OP_LINEAR_CHUNK).pool[0]? = none) ∧
      (op_ll_allocate_object
        (op_ll_initialize_allocator 1 1 .OP_LINEAR_CHUNK)).allocator.pool[0]? =
        some (some true)) :=
  ⟨by decide, by decide, claim_C10 _ 0 (by decide) (by decide)⟩

theorem claim_C9_amended_witness :
    stale_handle.initialized = false ∧
    ((op_ll_allocate_object stale_handle).rv = none ∧
      (op_ll_allocate_object stale_handle).allocator = stale_handle ∧
      (op_ll_allocate_object stale_handle).errors ≠ [] ∧
      (op_ll_get_allocator_stats stale_handle).1 = ⟨0, 0, 0⟩ ∧
      (op_ll_get_allocator_stats stale_handle).2 = [] ∧
      (op_ll_deallocate_object none (some 0)).errors ≠ [] ∧
      (op_ll_deallocate_object none (some 0)).allocator = none ∧
      (op_ll_deallocate_object (some stale_handle) (some 0)).errors = []) :=
  ⟨by decide, claim_C9_amended _ (by decide) 0 0⟩

end Opalloc
